import Mathlib

/-!
Verification development for a collection of GNN tutorial notebooks
(PyTorch Geometric and DGL).  The repository consists of five notebooks:

* `dgl_tutorial/Tutorial 0 - B.Y.O.Graphs.ipynb` — building DGL graph
  containers and attaching node/edge feature tensors;
* `pyg_tutorial/1.mp_layer.ipynb` — four `MessagePassing` subclasses
  (`NaiveGCNConv`, `EdgeConv`, `InteractionNetworkLayer`, `AttentiveINLayer`);
* `pyg_tutorial/2.gnn.ipynb` — composing pre-built layers, pooling, and a
  naive loopy re-implementation `out_naive` of the library's scatter-sum;
* `pyg_tutorial/3.dataloader.ipynb` — `generate_er_graph`, the `ERDataset`
  list wrapper and PyG `DataLoader` batching;
* an unnamed notebook (Tutorial 4) — `get_dataset` / `train` / `test` for a
  GCN on Planetoid benchmarks.

Tensors are embedded as lists of rational rows (exact arithmetic standing in
for the float tensors); randomness (`torch.randn`, `torch.randint`, the
Erdős–Rényi coin flips) is supplied as explicit function parameters, so every
definition is executable.  Behaviour of the external dependency that the
notebooks call into (scatter, `MessagePassing.propagate`,
`Batch.from_data_list`) is modelled from the dependency's documented
semantics and marked as such in the doc comments.
-/

namespace GNN

/-- A feature row: one node's (or edge's) feature vector, with exact
rational entries standing in for floats. -/
abbrev Vec := List ℚ

/-- A 2-D tensor as a list of feature rows. -/
abbrev Mat := List Vec

/-- Elementwise sum of two feature rows (`torch` broadcasting not needed:
all rows involved have equal length). -/
def vecAdd (a b : Vec) : Vec := List.zipWith (· + ·) a b

/-- The all-zero row of dimension `d` (`torch.zeros(d)`). -/
def vecZero (d : Nat) : Vec := List.replicate d 0

/-- Sum of a list of rows of dimension `d` (`tensor.sum(dim=0)`); the empty
sum is the zero row. -/
def vecSum (d : Nat) (vs : List Vec) : Vec := vs.foldr vecAdd (vecZero d)

/-- Dot product of two rows. -/
def dotProd (a b : Vec) : ℚ := (List.zipWith (· * ·) a b).sum

/-- Matrix–vector product: `W` acts on a feature row. -/
def matVec (W : Mat) (v : Vec) : Vec := W.map (fun r => dotProd r v)

/-- The matrix `torch.randn(n, d)` with the draws supplied by `rng`. -/
def randnMat (rng : Nat → Nat → ℚ) (n d : Nat) : Mat :=
  (List.range n).map (fun i => (List.range d).map (fun j => rng i j))

/-- Sum of all entries of a matrix (`tensor.sum()`). -/
def matSumAll (m : Mat) : ℚ := (m.map (fun r => r.sum)).sum

/-! ### Scatter aggregation (2.gnn.ipynb, final cells)

The notebook compares a hand-written loop against the dependency's
`scatter(src, index, dim=0, reduce="sum")`.  Rows of `src` are abstracted to
an arbitrary additive commutative monoid (in the notebook they are
`dim1 × dim2` float matrices). -/

/-- The value `torch.unique(index)`: the distinct values occurring in
`index`, in increasing order. -/
def torchUnique (index : List Nat) : List Nat :=
  (List.range (index.foldr max 0 + 1)).filter (fun i => i ∈ index)

/-- The row `src[index == i].sum(dim=0)`: sum of the rows of `src` whose
index equals `i`. -/
def maskSum {α : Type} [AddCommMonoid α] (src : List α) (index : List Nat) (i : Nat) : α :=
  (((src.zip index).filter (fun p => p.2 = i)).map (fun p => p.1)).sum

/-- The notebook's loop body: `for i in u: out_naive[i] = src[index == i].sum(dim=0)`.
Writing outside the bounds of `out` is an `IndexError`, modelled as `none`. -/
def setLoop {α : Type} [AddCommMonoid α] (src : List α) (index : List Nat) :
    List Nat → List α → Option (List α)
  | [], out => some out
  | i :: rest, out =>
      if i < out.length then setLoop src index rest (out.set i (maskSum src index i))
      else none

/-- The notebook's naive loopy scatter-sum:
`out_naive = torch.zeros(index.unique().shape[0], dim1, dim2)` followed by
`for i in index.unique().tolist(): out_naive[i] = src[index == i].sum(dim=0)`. -/
def outNaive {α : Type} [AddCommMonoid α] (src : List α) (index : List Nat) :
    Option (List α) :=
  let u := torchUnique index
  setLoop src index u (List.replicate u.length 0)

/-- The library call `scatter(src, index, dim=0, reduce="sum")` as the claim
describes it: row `i` of the result is the sum over the rows of `src` whose
index equals `i`, for `i` ranging over `0, ..., k-1`. -/
def scatterSumSpec {α : Type} [AddCommMonoid α] (k : Nat) (src : List α)
    (index : List Nat) : List α :=
  (List.range k).map (maskSum src index)

end GNN

namespace GNN

lemma foldr_max_le {l : List Nat} {m : Nat} (h : ∀ x ∈ l, x ≤ m) :
    l.foldr max 0 ≤ m := by
  induction l with
  | nil => simp
  | cons a t ih =>
      simp only [List.foldr_cons]
      exact max_le (h a (by simp)) (ih (fun x hx => h x (by simp [hx])))

lemma le_foldr_max {l : List Nat} {x : Nat} (h : x ∈ l) :
    x ≤ l.foldr max 0 := by
  induction l with
  | nil => cases h
  | cons a t ih =>
      simp only [List.foldr_cons]
      rcases List.mem_cons.mp h with rfl | h'
      · exact le_max_left _ _
      · exact le_trans (ih h') (le_max_right _ _)

lemma torchUnique_eq_range {index : List Nat} {k : Nat}
    (h1 : ∀ j ∈ index, j < k) (h2 : ∀ i, i < k → i ∈ index) :
    torchUnique index = List.range k := by
  rcases Nat.eq_zero_or_pos k with hk | hk
  · subst hk
    have hnil : index = [] :=
      List.eq_nil_iff_forall_not_mem.mpr
        (fun a ha => absurd (h1 a ha) (Nat.not_lt_zero a))
    subst hnil
    simp [torchUnique]
  · have hmax : index.foldr max 0 = k - 1 := by
      apply le_antisymm
      · exact foldr_max_le (fun x hx => Nat.le_sub_one_of_lt (h1 x hx))
      · exact le_foldr_max (h2 (k - 1) (Nat.sub_lt hk one_pos))
    rw [torchUnique, hmax, Nat.sub_add_cancel hk]
    apply List.filter_eq_self.mpr
    intro a ha
    simpa using h2 a (List.mem_range.mp ha)

end GNN

namespace GNN

lemma getD_map_range {α : Type} (l : List α) (d : α) :
    (List.range l.length).map (fun p => l.getD p d) = l := by
  apply List.ext_getElem
  · simp
  · intro i h1 h2
    simp only [List.getElem_map, List.getElem_range]
    exact List.getD_eq_getElem l d h2

lemma setLoop_range' {α : Type} [AddCommMonoid α] (src : List α) (index : List Nat) :
    ∀ (m s : Nat) (out : List α), s + m ≤ out.length →
      setLoop src index (List.range' s m) out =
        some ((List.range out.length).map
          (fun p => if s ≤ p ∧ p < s + m then maskSum src index p else out.getD p 0)) := by
  intro m
  induction m with
  | zero =>
      intro s out _
      have hpt : ∀ p ∈ List.range out.length,
          (if s ≤ p ∧ p < s + 0 then maskSum src index p else out.getD p 0)
            = out.getD p 0 := by
        intro p _
        have hno : ¬ (s ≤ p ∧ p < s + 0) := by omega
        simp [hno]
      simp only [List.range'_zero, setLoop]
      rw [List.map_congr_left hpt, getD_map_range]
  | succ m ih =>
      intro s out hlen
      have hs : s < out.length := by omega
      rw [List.range'_succ s m 1]
      simp only [setLoop, if_pos hs]
      have hlen2 : s + 1 + m ≤ (out.set s (maskSum src index s)).length := by
        simp only [List.length_set]; omega
      rw [ih (s + 1) (out.set s (maskSum src index s)) hlen2]
      simp only [List.length_set]
      congr 1
      apply List.map_congr_left
      intro p hp
      have hplen : p < out.length := List.mem_range.mp hp
      by_cases hp1 : s + 1 ≤ p ∧ p < s + 1 + m
      · have hc : s ≤ p ∧ p < s + (m + 1) := by omega
        rw [if_pos hp1, if_pos hc]
      · by_cases hp2 : p = s
        · subst hp2
          have hc : p ≤ p ∧ p < p + (m + 1) := by omega
          rw [if_neg hp1, if_pos hc,
              List.getD_eq_getElem _ 0 (by simpa using hplen)]
          exact List.getElem_set_self _
        · have hc : ¬ (s ≤ p ∧ p < s + (m + 1)) := by omega
          rw [if_neg hp1, if_neg hc,
              List.getD_eq_getElem _ 0 (by simpa using hplen),
              List.getD_eq_getElem _ 0 hplen]
          exact List.getElem_set_ne (fun h => hp2 h.symm) _

lemma outNaive_eq_scatterSumSpec {α : Type} [AddCommMonoid α]
    {k : Nat} {src : List α} {index : List Nat}
    (h1 : ∀ j ∈ index, j < k) (h2 : ∀ i, i < k → i ∈ index) :
    outNaive src index = some (scatterSumSpec k src index) := by
  simp only [outNaive]
  rw [torchUnique_eq_range h1 h2]
  simp only [List.length_range]
  rw [List.range_eq_range' k,
      setLoop_range' src index k 0 (List.replicate k 0) (by simp)]
  congr 1
  simp only [List.length_replicate, Nat.zero_add, scatterSumSpec]
  apply List.map_congr_left
  intro p hp
  have hpk : p < k := List.mem_range.mp hp
  have hc : 0 ≤ p ∧ p < k := ⟨Nat.zero_le p, hpk⟩
  simp [hc]

end GNN

namespace GNN

/-! ### Graph containers (3.dataloader.ipynb, dgl_tutorial, common/graph_gen)

`PyGData` embeds `torch_geometric.data.Data` with the attributes the
notebooks use.  Randomness is supplied through explicit parameters:
`coin i j` stands for the Bernoulli draw deciding whether the undirected
pair `(i, j)` becomes an edge, and `rng` supplies the `torch.randn` draws. -/

/-- A PyG `Data` graph object: node features `x`, the edge index as a list
of (source, target) pairs, and the optional attributes appearing in the
notebooks. -/
structure PyGData where
  x : Mat
  edge_index : List (Nat × Nat)
  edge_attr : Option Mat
  y : Option Mat
  dummy : Option Mat
deriving DecidableEq

/-- The edge list built by `erdos_renyi_graph(num_nodes, edge_prob)`: every
unordered pair `i < j` is kept when its coin flip succeeds, and each kept
pair contributes the directed edges `(i, j)` and `(j, i)`. -/
def erdosRenyiGraph (num_nodes : Nat) (coin : Nat → Nat → Bool) : List (Nat × Nat) :=
  let ups := ((List.range num_nodes).map (fun i =>
    (List.range num_nodes).filterMap (fun j =>
      if i < j ∧ coin i j = true then some (i, j) else none))).flatten
  ups ++ ups.map (fun e => (e.2, e.1))

/-- `generate_er_graph` from 3.dataloader.ipynb: an Erdős–Rényi edge index,
`x = torch.randn(num_nodes, feat_dim)`, the label
`y = (x.sum() / num_nodes).view(1,1)` and a `dummy = torch.randn(num_nodes, 32)`
attribute.  `rng 0` supplies the draws for `x` and `rng 1` those for `dummy`;
the notebook calls this with `feat_dim = 16` (the Python default). -/
def generate_er_graph (num_nodes : Nat) (feat_dim : Nat)
    (coin : Nat → Nat → Bool) (rng : Nat → Nat → Nat → ℚ) : PyGData :=
  let edge_idx := erdosRenyiGraph num_nodes coin
  let x := randnMat (rng 0) num_nodes feat_dim
  { x := x
  , edge_index := edge_idx
  , edge_attr := none
  , y := some [[matSumAll x / (num_nodes : ℚ)]]
  , dummy := some (randnMat (rng 1) num_nodes 32) }

/-- Modelled from the spec: `generate_random_graph` lives in the
repository's `common/graph_gen.py`, which is not among the provided
sources (1.mp_layer.ipynb and 2.gnn.ipynb only call it).  Per the spec's
data model it returns a graph object holding a node-feature tensor with one
row of dimension `node_feat_dim` per node, an edge index, and an
edge-feature tensor with one row of dimension `edge_feat_dim` per edge. -/
def generate_random_graph (num_node : Nat) (node_feat_dim edge_feat_dim : Nat)
    (coin : Nat → Nat → Bool) (rng : Nat → Nat → Nat → ℚ) : PyGData :=
  let edge_idx := erdosRenyiGraph num_node coin
  { x := randnMat (rng 0) num_node node_feat_dim
  , edge_index := edge_idx
  , edge_attr := some (randnMat (rng 1) edge_idx.length edge_feat_dim)
  , y := none
  , dummy := none }

/-- `torch.randint(low, high, (n,))`: `n` draws from the half-open range
`[low, high)`; draw `i` is realised as `low + r i % (high - low)` (torch
itself rejects `low ≥ high`). -/
def torchRandint (low high n : Nat) (r : Nat → Nat) : List Nat :=
  (List.range n).map (fun i => low + r i % (high - low))

/-- The `ERDataset` of 3.dataloader.ipynb: a `torch.utils.data.Dataset`
subclass whose constructor stores the list
`self.gs = [generate_er_graph(num_nodes[i], edge_prob) for i in range(num_graphs)]`
with `num_nodes = torch.randint(min_num_nodes, max_num_nodes, (num_graphs,))`. -/
structure ERDataset where
  gs : List PyGData
deriving DecidableEq

/-- `ERDataset.__init__`: the random draws of `torch.randint` are supplied
by `r`; graph `i` receives the coin flips `coin i` and randn draws `rng i`
(the `edge_prob` argument is absorbed into the Bernoulli coin flips). -/
def ERDataset.init (num_graphs min_num_nodes max_num_nodes : Nat)
    (r : Nat → Nat) (coin : Nat → Nat → Nat → Bool)
    (rng : Nat → Nat → Nat → Nat → ℚ) : ERDataset :=
  let num_nodes := torchRandint min_num_nodes max_num_nodes num_graphs r
  { gs := (List.range num_graphs).map (fun i =>
      generate_er_graph (num_nodes.getD i 0) 16 (coin i) (rng i)) }

/-- `ERDataset.__getitem__(index)`: `return self.gs[index]`; a non-negative
index beyond the end of the list is a Python `IndexError`, modelled as
`none`. -/
def ERDataset.getitem (d : ERDataset) (i : Nat) : Option PyGData :=
  d.gs[i]?

/-- The graph object with no attributes, used only as the junk default of
`List.getD`. -/
def defaultData : PyGData :=
  { x := [], edge_index := [], edge_attr := none, y := none, dummy := none }

/-- `ERDataset.__len__()`: `return len(self.gs)`. -/
def ERDataset.len (d : ERDataset) : Nat := d.gs.length

/-! ### DGL graph containers (Tutorial 0 - B.Y.O.Graphs.ipynb) -/

/-- A `dgl.graph` container: a node count, directed edges, and the optional
`ndata['feat']` / `edata['feat']` tensors the notebook attaches. -/
structure DGLGraph where
  num_nodes : Nat
  edges : List (Nat × Nat)
  ndataFeat : Option Mat
  edataFeat : Option Mat
deriving DecidableEq

/-- `dgl.graph((u, v))`: node count inferred as one more than the largest
node id mentioned in the edges (zero when there are no edges). -/
def dglGraph (u v : List Nat) : DGLGraph :=
  { num_nodes := if u ++ v = [] then 0 else (u ++ v).foldr max 0 + 1
  , edges := u.zip v
  , ndataFeat := none
  , edataFeat := none }

/-- `dgl.graph((u, v), num_nodes=n)`: the same edges with an explicit node
count. -/
def dglGraphWithNumNodes (u v : List Nat) (n : Nat) : DGLGraph :=
  { num_nodes := n, edges := u.zip v, ndataFeat := none, edataFeat := none }

/-- The graph built by the feature-attachment cells of the DGL notebook:
`g = dgl.graph((u, v), num_nodes=8)` with `u = [0,0,0,1]`, `v = [1,2,3,3]`,
then `g.ndata['feat'] = torch.randn(g.number_of_nodes(), 7)` and
`g.edata['feat'] = torch.randn(g.number_of_edges(), 3)`. -/
def tutorial0Graph (rngN rngE : Nat → Nat → ℚ) : DGLGraph :=
  let g := dglGraphWithNumNodes [0, 0, 0, 1] [1, 2, 3, 3] 8
  { g with
      ndataFeat := some (randnMat rngN g.num_nodes 7)
    , edataFeat := some (randnMat rngE g.edges.length 3) }

end GNN

namespace GNN

/-! ### Batched graphs (2.gnn.ipynb cell 3, 3.dataloader.ipynb DataLoader) -/

/-- A PyG `Batch` object: concatenated node features, concatenated (and
shifted) edge index, the per-node graph-membership vector `batch`, and the
number of collated graphs. -/
structure PyGBatch where
  x : Mat
  edge_index : List (Nat × Nat)
  batch : List Nat
  numGraphs : Nat
deriving DecidableEq

/-- The empty batch the collation starts from. -/
def emptyBatch : PyGBatch :=
  { x := [], edge_index := [], batch := [], numGraphs := 0 }

/-- Modelled from the dependency's documented collation: appending one graph
to a batch concatenates its node-feature rows, appends its edges shifted by
the number of nodes already in the batch, and labels each of its nodes with
the position the graph takes in the batch. -/
def appendData (b : PyGBatch) (g : PyGData) : PyGBatch :=
  { x := b.x ++ g.x
  , edge_index := b.edge_index ++
      g.edge_index.map (fun e => (e.1 + b.x.length, e.2 + b.x.length))
  , batch := b.batch ++ List.replicate g.x.length b.numGraphs
  , numGraphs := b.numGraphs + 1 }

/-- Modelled from the dependency's documented behaviour of
`Batch.from_data_list` (also the collation the PyG `DataLoader` performs):
the graphs of the list are collated in order, starting from the empty
batch. -/
def fromDataList (gs : List PyGData) : PyGBatch := gs.foldl appendData emptyBatch

/-- The claim's description of the batch vector: graph number `n` is the
next label, and every node of each graph receives the index of the graph it
came from, in list order. -/
def batchVecFrom : Nat → List PyGData → List Nat
  | _, [] => []
  | n, g :: gs => List.replicate g.x.length n ++ batchVecFrom (n + 1) gs

/-! ### Message-passing layer configurations (1.mp_layer.ipynb)

The four notebook classes subclass the dependency's `MessagePassing` base
class.  Their constructors are transcribed here as configuration data: the
`aggr` argument handed to `super().__init__` and the trainable feed-forward
sub-networks created in `__init__`, each recorded by the sizes of the
feature vectors flowing through it. -/

/-- A feed-forward sub-network (`nn.Linear` or `nn.Sequential` of linear
layers), recorded by the feature sizes through its linear layers. -/
structure SubNet where
  dims : List Nat
deriving DecidableEq

/-- The aggregation-reduction choice handed to `MessagePassing.__init__`
via its `aggr` keyword: a built-in reduction name, or an
`aggr.AttentionalAggregation` parametrised by its gate network. -/
inductive AggrChoice where
  | add : AggrChoice
  | max : AggrChoice
  | mean : AggrChoice
  | attentional : SubNet → AggrChoice
deriving DecidableEq

/-- Constructor-level configuration of a `MessagePassing` subclass: its one
`aggr` argument and the feed-forward sub-networks its `__init__` creates. -/
structure MPLayerConfig where
  aggr : AggrChoice
  subNetworks : List SubNet
deriving DecidableEq

/-- `NaiveGCNConv.__init__(dim)`: `super().__init__(aggr='add')` and
`self.linear = nn.Linear(dim, dim)` (the activation module holds no
trainable feed-forward layers). -/
def naiveGCNConvConfig (dim : Nat) : MPLayerConfig :=
  { aggr := AggrChoice.add, subNetworks := [⟨[dim, dim]⟩] }

/-- `EdgeConv.__init__(dim)`: `super().__init__(aggr='max')` and
`self.h = nn.Sequential(nn.Linear(dim*2, dim), nn.ReLU(), nn.Linear(dim, dim))`. -/
def edgeConvConfig (dim : Nat) : MPLayerConfig :=
  { aggr := AggrChoice.max, subNetworks := [⟨[dim * 2, dim, dim]⟩] }

/-- `InteractionNetworkLayer.__init__(dim)`: `super().__init__(aggr='add')`,
`self.f = nn.Sequential(nn.Linear(dim*3, dim), nn.ReLU(), nn.Linear(dim, dim))`
and `self.g = nn.Sequential(nn.Linear(dim*2, dim), nn.ReLU(), nn.Linear(dim, dim))`. -/
def interactionNetworkLayerConfig (dim : Nat) : MPLayerConfig :=
  { aggr := AggrChoice.add
  , subNetworks := [⟨[dim * 3, dim, dim]⟩, ⟨[dim * 2, dim, dim]⟩] }

/-- `AttentiveINLayer.__init__(dim)`: builds
`gate_nn = nn.Sequential(nn.Linear(dim, dim), nn.Tanh(), nn.Linear(dim, 1))`,
passes `aggr=aggr.AttentionalAggregation(gate_nn=gate_nn)` to the base
class, and creates `self.f` and `self.g` exactly as in
`InteractionNetworkLayer`. -/
def attentiveINLayerConfig (dim : Nat) : MPLayerConfig :=
  { aggr := AggrChoice.attentional ⟨[dim, dim, 1]⟩
  , subNetworks := [⟨[dim, dim, 1]⟩, ⟨[dim * 3, dim, dim]⟩, ⟨[dim * 2, dim, dim]⟩] }

end GNN

namespace GNN

/-! ### Notebook-level structure (all five source files)

Structural facts of the five notebooks, transcribed cell by cell: which
framework subclasses each notebook defines, whether it builds graph data,
whether it runs a forward pass or a training loop through the framework,
and which original (non-library) implementations of scatter aggregation it
contains. -/

/-- Structural summary of one notebook. -/
structure NotebookInfo where
  title : String
  /-- Names of the classes the notebook defines that subclass a framework
  base class (`MessagePassing`, `torch.utils.data.Dataset`, ...). -/
  frameworkSubclasses : List String
  /-- Whether the notebook constructs a small random or benchmark graph /
  graph dataset. -/
  buildsGraphData : Bool
  /-- Whether the notebook invokes the framework to run a forward pass or a
  training loop. -/
  runsForwardOrTraining : Bool
  /-- Names of hand-written (non-library) scatter-aggregation
  implementations appearing in the notebook. -/
  originalScatterImpls : List String
deriving DecidableEq

/-- `dgl_tutorial/Tutorial 0 - B.Y.O.Graphs.ipynb`: networkx and dgl graph
construction plus feature attachment; no class definitions, no model, no
forward pass. -/
def dglTutorial0 : NotebookInfo :=
  { title := "Tutorial 0 - B.Y.O.Graphs"
  , frameworkSubclasses := []
  , buildsGraphData := true
  , runsForwardOrTraining := false
  , originalScatterImpls := [] }

/-- `pyg_tutorial/1.mp_layer.ipynb`: four `MessagePassing` subclasses, a
random graph via `generate_random_graph`, and forward passes through each
layer. -/
def mpLayerNotebook : NotebookInfo :=
  { title := "1.mp_layer"
  , frameworkSubclasses :=
      ["NaiveGCNConv", "EdgeConv", "InteractionNetworkLayer", "AttentiveINLayer"]
  , buildsGraphData := true
  , runsForwardOrTraining := true
  , originalScatterImpls := [] }

/-- `pyg_tutorial/2.gnn.ipynb`: builds models only from imported and
pre-built classes (no class definition of its own), batches random graphs,
runs forward passes, and contains the hand-written `out_naive` scatter-sum
loop. -/
def gnnNotebook : NotebookInfo :=
  { title := "2.gnn"
  , frameworkSubclasses := []
  , buildsGraphData := true
  , runsForwardOrTraining := true
  , originalScatterImpls := ["out_naive"] }

/-- `pyg_tutorial/3.dataloader.ipynb`: defines the `ERDataset` subclass of
`torch.utils.data.Dataset`, builds an ER dataset, and runs a GCN forward
pass on a batch. -/
def dataloaderNotebook : NotebookInfo :=
  { title := "3.dataloader"
  , frameworkSubclasses := ["ERDataset"]
  , buildsGraphData := true
  , runsForwardOrTraining := true
  , originalScatterImpls := [] }

/-- The unnamed Tutorial 4 notebook (`src/unnamed/part_000`): functions
`get_dataset`, `train`, `test` and a driver loop training the pre-built
`GCN` on Planetoid benchmarks; it defines no class of its own. -/
def gcnReimplNotebook : NotebookInfo :=
  { title := "4.gcn reimplementation"
  , frameworkSubclasses := []
  , buildsGraphData := true
  , runsForwardOrTraining := true
  , originalScatterImpls := [] }

/-- The five notebooks of the repository. -/
def notebooks : List NotebookInfo :=
  [dglTutorial0, mpLayerNotebook, gnnNotebook, dataloaderNotebook, gcnReimplNotebook]

/-! ### get_dataset (unnamed Tutorial 4 notebook) -/

/-- An error escaping a repository-defined function: either the
`AssertionError` of the repository's own `assert`, or an error raised
inside the external library. -/
inductive DatasetError where
  | assertionFailed : DatasetError
  | libraryError : String → DatasetError
deriving DecidableEq

/-- `get_dataset(name)` from the Tutorial 4 notebook:
`assert name in ['Cora', 'CiteSeer', 'PubMed']` followed by
`Planetoid(root=f'/tmp/{name}', name=f'{name}')`.  The external `Planetoid`
constructor is supplied as `lib`; its failures surface as `libraryError`,
while a failing `assert` is the repository's own `assertionFailed`. -/
def get_dataset {α : Type} (lib : String → Except String α) (name : String) :
    Except DatasetError α :=
  if name ∈ ["Cora", "CiteSeer", "PubMed"] then
    match lib name with
    | Except.ok d => Except.ok d
    | Except.error e => Except.error (DatasetError.libraryError e)
  else Except.error DatasetError.assertionFailed

/-- A `Planetoid` stand-in that always succeeds, for evaluating
`get_dataset` at concrete inputs. -/
def planetoidAlwaysOk : String → Except String Unit :=
  fun _ => Except.ok Unit.unit

/-! ### NaiveGCNConv.forward (1.mp_layer.ipynb) -/

/-- `nn.Linear(dim, dim)` applied row-wise: each node feature row becomes
`W x + b`. -/
def linearForward (W : Mat) (b : Vec) (x : Mat) : Mat :=
  x.map (fun v => vecAdd (matVec W v) b)

/-- Modelled from the dependency's documented behaviour:
`MessagePassing.propagate(x=x, edge_index=edge_index)` with `aggr='add'`
and the default message `x_j` gives node `i` the sum, over the edges
`(j, i)` of the edge index, of row `j` of `x`; a node no edge points to
receives the zero row. -/
def propagateAdd (d : Nat) (edge_index : List (Nat × Nat)) (x : Mat) : Mat :=
  (List.range x.length).map (fun i =>
    vecSum d ((edge_index.filter (fun e => e.2 = i)).map
      (fun e => x.getD e.1 (vecZero d))))

/-- `NaiveGCNConv.forward(x, edge_index)`:
`x = self.linear(x)`, then `x = self.propagate(x=x, edge_index=edge_index)`,
then `x = self.act(x)` with the activation applied entrywise. -/
def naiveGCNConvForward (W : Mat) (b : Vec) (act : ℚ → ℚ)
    (x : Mat) (edge_index : List (Nat × Nat)) : Mat :=
  let x1 := linearForward W b x
  let x2 := propagateAdd W.length edge_index x1
  x2.map (fun v => v.map act)

/-- The claim's description of row `i` of the output: the activation
applied to the sum, over the edges `(j, i)`, of `W x_j + b`. -/
def naiveGCNSpecRow (W : Mat) (b : Vec) (act : ℚ → ℚ)
    (x : Mat) (edge_index : List (Nat × Nat)) (i : Nat) : Vec :=
  (vecSum W.length ((edge_index.filter (fun e => e.2 = i)).map
    (fun e => vecAdd (matVec W (x.getD e.1 [])) b))).map act

end GNN

namespace GNN

/-- C4: for every source tensor `src` and every index vector over
`{0, ..., k-1}` whose set of values is exactly `{0, ..., k-1}`, the
notebook's naive loop implementation (`out_naive[i] = sum over rows of src
whose index equals i`) computes the same tensor as the library call
`scatter(src, index, dim=0, reduce="sum")`. -/
theorem out_naive_eq_scatter {α : Type} [AddCommMonoid α] (k : Nat)
    (src : List α) (index : List Nat)
    (_hlen : index.length = src.length)
    (h1 : ∀ j ∈ index, j < k) (h2 : ∀ i, i < k → i ∈ index) :
    outNaive src index = some (scatterSumSpec k src index) :=
  outNaive_eq_scatterSumSpec h1 h2

/-- Witness for `out_naive_eq_scatter` at the notebook's own index vector
`[0, 1, 0, 1, 2, 1]` with an integer source. -/
theorem out_naive_eq_scatter_witness :
    ([0, 1, 0, 1, 2, 1] : List Nat).length = ([10, 20, 30, 40, 50, 60] : List ℤ).length ∧
    (∀ j ∈ ([0, 1, 0, 1, 2, 1] : List Nat), j < 3) ∧
    (∀ i, i < 3 → i ∈ ([0, 1, 0, 1, 2, 1] : List Nat)) ∧
    outNaive ([10, 20, 30, 40, 50, 60] : List ℤ) [0, 1, 0, 1, 2, 1]
      = some (scatterSumSpec 3 ([10, 20, 30, 40, 50, 60] : List ℤ) [0, 1, 0, 1, 2, 1]) :=
  ⟨by decide, by decide, by decide,
    out_naive_eq_scatter 3 [10, 20, 30, 40, 50, 60] [0, 1, 0, 1, 2, 1]
      (by decide) (by decide) (by decide)⟩

/-- C1 counterexample: the claim that no notebook contains an original
implementation of scatter aggregation is false.  2.gnn.ipynb defines the
hand-written loop `out_naive`, and at the notebook's own index vector that
loop itself produces the scatter-sum aggregation (shown here on a concrete
integer source), not via any call into the framework. -/
theorem gnn_notebook_defines_naive_scatter :
    gnnNotebook ∈ notebooks ∧
    gnnNotebook.originalScatterImpls = ["out_naive"] ∧
    outNaive ([1, 2, 3, 4, 5, 6] : List ℤ) [0, 1, 0, 1, 2, 1] = some [4, 12, 5] ∧
    scatterSumSpec 3 ([1, 2, 3, 4, 5, 6] : List ℤ) [0, 1, 0, 1, 2, 1] = [4, 12, 5] := by
  refine ⟨by simp [notebooks], rfl, by decide, by decide⟩

/-- C1 amended: message passing / scatter aggregation is implemented by the
dependency and configured through subclassing and keyword arguments, with
one exception: 2.gnn.ipynb contains the demonstrative naive loop
`out_naive`, written only to validate the library's scatter, and that loop
agrees with the library call on every input whose index values are exactly
`{0, ..., k-1}`. -/
theorem scatter_aggregation_delegated_except_demo :
    (∀ nb ∈ notebooks, nb.originalScatterImpls = [] ∨ nb = gnnNotebook) ∧
    gnnNotebook.originalScatterImpls = ["out_naive"] ∧
    (∀ (α : Type) (instA : AddCommMonoid α) (k : Nat) (src : List α) (index : List Nat),
      (∀ j ∈ index, j < k) → (∀ i, i < k → i ∈ index) →
      @outNaive α instA src index = some (@scatterSumSpec α instA k src index)) := by
  refine ⟨?_, rfl, fun α instA k src index h1 h2 => outNaive_eq_scatterSumSpec h1 h2⟩
  intro nb hnb
  simp only [notebooks, List.mem_cons, List.mem_singleton] at hnb
  rcases hnb with rfl | rfl | rfl | rfl | rfl | h
  · left; rfl
  · left; rfl
  · right; rfl
  · left; rfl
  · left; rfl
  · cases h

/-- Witness for `scatter_aggregation_delegated_except_demo`, discharging the
hypotheses of its third conjunct at a concrete input. -/
theorem scatter_aggregation_delegated_except_demo_witness :
    outNaive ([2, 4, 6] : List ℤ) [1, 0, 1]
      = some (scatterSumSpec 2 ([2, 4, 6] : List ℤ) [1, 0, 1]) :=
  scatter_aggregation_delegated_except_demo.2.2 ℤ inferInstance 2 [2, 4, 6] [1, 0, 1]
    (by decide) (by decide)

end GNN

namespace GNN

/-- A trivial `torch.randint` draw source for concrete evaluations. -/
def wR : Nat → Nat := fun _ => 0

/-- A trivial per-graph Bernoulli coin source for concrete evaluations. -/
def wCoin : Nat → Nat → Nat → Bool := fun _ _ _ => false

/-- A trivial per-graph `torch.randn` draw source for concrete
evaluations. -/
def wRng : Nat → Nat → Nat → Nat → ℚ := fun _ _ _ _ => 0

/-- C2 counterexample: `get_dataset("MNIST")` fails with the repository's
own `AssertionError` even when the external library succeeds on every
input — a repository-defined function does perform input validation of its
own, and the error does not originate from the external library. -/
theorem get_dataset_rejects_unknown_name :
    get_dataset planetoidAlwaysOk "MNIST" = Except.error DatasetError.assertionFailed := by
  rfl

/-- C2 amended: the repository adds no retry or recovery logic, and the
only input validation its own code performs is the `assert` of
`get_dataset`: that function raises the repository's own `AssertionError`
exactly on names outside Cora / CiteSeer / PubMed, and on allowed names it
returns the external library's result (or the library's error) unchanged. -/
theorem get_dataset_assertion_characterization {α : Type}
    (lib : String → Except String α) (name : String) :
    (get_dataset lib name = Except.error DatasetError.assertionFailed
        ↔ name ∉ (["Cora", "CiteSeer", "PubMed"] : List String)) ∧
    (∀ e : String, get_dataset lib name = Except.error (DatasetError.libraryError e)
        ↔ name ∈ (["Cora", "CiteSeer", "PubMed"] : List String) ∧ lib name = Except.error e) ∧
    (∀ d : α, get_dataset lib name = Except.ok d
        ↔ name ∈ (["Cora", "CiteSeer", "PubMed"] : List String) ∧ lib name = Except.ok d) := by
  by_cases h : name ∈ (["Cora", "CiteSeer", "PubMed"] : List String)
  · cases hl : lib name with
    | ok d => simp [get_dataset, h, hl]
    | error e => simp [get_dataset, h, hl]
  · simp [get_dataset, h]

/-- C3: the `ERDataset` class is a trivial list wrapper: for every index
`i` with `0 ≤ i < len(dataset)`, `__getitem__(i)` returns exactly the
`i`-th graph of the stored list `self.gs`, and `__len__` returns the number
of stored graphs, which equals the `num_graphs` constructor argument. -/
theorem er_dataset_trivial_wrapper
    (num_graphs min_num_nodes max_num_nodes : Nat)
    (r : Nat → Nat) (coin : Nat → Nat → Nat → Bool)
    (rng : Nat → Nat → Nat → Nat → ℚ) (i : Nat)
    (h : i < (ERDataset.init num_graphs min_num_nodes max_num_nodes r coin rng).len) :
    (ERDataset.init num_graphs min_num_nodes max_num_nodes r coin rng).getitem i
      = some ((ERDataset.init num_graphs min_num_nodes max_num_nodes r coin rng).gs.getD
          i defaultData) ∧
    (ERDataset.init num_graphs min_num_nodes max_num_nodes r coin rng).len = num_graphs := by
  constructor
  · rw [ERDataset.getitem, List.getElem?_eq_getElem h,
        List.getD_eq_getElem _ _ h]
  · simp [ERDataset.init, ERDataset.len]

/-- Witness for `er_dataset_trivial_wrapper` on a concrete two-graph
dataset. -/
theorem er_dataset_trivial_wrapper_witness :
    0 < (ERDataset.init 2 1 2 wR wCoin wRng).len ∧
    ((ERDataset.init 2 1 2 wR wCoin wRng).getitem 0
        = some ((ERDataset.init 2 1 2 wR wCoin wRng).gs.getD 0 defaultData) ∧
      (ERDataset.init 2 1 2 wR wCoin wRng).len = 2) :=
  ⟨by decide, er_dataset_trivial_wrapper 2 1 2 wR wCoin wRng 0 (by decide)⟩

end GNN

namespace GNN

lemma fromDataList_go (gs : List PyGData) :
    ∀ b : PyGBatch,
      (gs.foldl appendData b).x = b.x ++ (gs.map (fun g => g.x)).flatten ∧
      (gs.foldl appendData b).batch = b.batch ++ batchVecFrom b.numGraphs gs ∧
      (gs.foldl appendData b).numGraphs = b.numGraphs + gs.length := by
  induction gs with
  | nil => intro b; simp [batchVecFrom]
  | cons g t ih =>
      intro b
      obtain ⟨hx, hb, hn⟩ := ih (appendData b g)
      refine ⟨?_, ?_, ?_⟩
      · rw [List.foldl_cons, hx]
        simp [appendData, List.append_assoc]
      · rw [List.foldl_cons, hb]
        simp [appendData, batchVecFrom, List.append_assoc]
      · rw [List.foldl_cons, hn]
        simp [appendData]
        omega
  
/-- C5: the batched-graph object built from a list of graphs concatenates
them: its node-feature matrix is the row-wise concatenation of the inputs'
node-feature matrices in list order, its total node count is the sum of the
inputs' node counts, and its `batch` vector labels every node with the
index of the graph it came from (graph 0 first, then graph 1, and so on). -/
theorem from_data_list_concatenates (gs : List PyGData) :
    (fromDataList gs).x = (gs.map (fun g => g.x)).flatten ∧
    (fromDataList gs).x.length = (gs.map (fun g => g.x.length)).sum ∧
    (fromDataList gs).batch = batchVecFrom 0 gs ∧
    (fromDataList gs).numGraphs = gs.length := by
  obtain ⟨hx, hb, hn⟩ := fromDataList_go gs emptyBatch
  have hx' : (fromDataList gs).x = (gs.map (fun g => g.x)).flatten := by
    rw [fromDataList, hx]; simp [emptyBatch]
  refine ⟨hx', ?_, ?_, ?_⟩
  · rw [hx', List.length_flatten, List.map_map]
    rfl
  · rw [fromDataList, hb]; simp [emptyBatch]
  · rw [fromDataList, hn]; simp [emptyBatch]

/-- C6 counterexample: the constructor of `AttentiveINLayer` creates three
small feed-forward sub-networks (the attention gate `gate_nn`, `self.f` and
`self.g`), contradicting the claim that every layer class creates one or
two, never more.  Shown at the notebook's `dim = 16`. -/
theorem attentive_in_layer_three_subnetworks :
    (attentiveINLayerConfig 16).subNetworks.length = 3 ∧
    ¬ (attentiveINLayerConfig 16).subNetworks.length ≤ 2 := by
  decide

/-- C6 amended: every layer class defined in the notebooks is a thin
configuration of the externally defined `MessagePassing` base class, each
specifying exactly one aggregation-reduction choice; `NaiveGCNConv` and
`EdgeConv` create one feed-forward sub-network, `InteractionNetworkLayer`
creates two, and `AttentiveINLayer` creates three — its third being the
gate network that parametrises its attentional aggregation choice. -/
theorem layer_configs_shape (dim : Nat) :
    (naiveGCNConvConfig dim).subNetworks.length = 1 ∧
    (edgeConvConfig dim).subNetworks.length = 1 ∧
    (interactionNetworkLayerConfig dim).subNetworks.length = 2 ∧
    (attentiveINLayerConfig dim).subNetworks.length = 3 ∧
    (naiveGCNConvConfig dim).aggr = AggrChoice.add ∧
    (edgeConvConfig dim).aggr = AggrChoice.max ∧
    (interactionNetworkLayerConfig dim).aggr = AggrChoice.add ∧
    (attentiveINLayerConfig dim).aggr = AggrChoice.attentional ⟨[dim, dim, 1]⟩ ∧
    (attentiveINLayerConfig dim).subNetworks.getD 0 ⟨[]⟩ = ⟨[dim, dim, 1]⟩ :=
  ⟨rfl, rfl, rfl, rfl, rfl, rfl, rfl, rfl, rfl⟩

/-- C7 counterexample: the DGL notebook defines no subclass of any
framework base class at all (and neither do 2.gnn.ipynb and the Tutorial 4
notebook), so it is false that each of the five notebooks defines at least
one such subclass. -/
theorem dgl_notebook_defines_no_subclass :
    dglTutorial0 ∈ notebooks ∧
    dglTutorial0.frameworkSubclasses = [] ∧
    ¬ (∀ nb ∈ notebooks, nb.frameworkSubclasses ≠ []) := by
  refine ⟨by simp [notebooks], rfl, fun h => ?_⟩
  exact h dglTutorial0 (by simp [notebooks]) rfl

/-- C7 amended: every notebook constructs a small random or benchmark graph
or graph dataset; every notebook except the DGL one invokes the framework
to run a forward pass or training loop; and framework subclasses with
overridden hook methods are defined in exactly two notebooks —
1.mp_layer.ipynb (four `MessagePassing` subclasses) and
3.dataloader.ipynb (one `Dataset` subclass). -/
theorem notebook_structure_facts :
    notebooks.filter (fun nb => nb.buildsGraphData) = notebooks ∧
    notebooks.filter (fun nb => !nb.runsForwardOrTraining) = [dglTutorial0] ∧
    notebooks.filter (fun nb => !nb.frameworkSubclasses.isEmpty)
      = [mpLayerNotebook, dataloaderNotebook] ∧
    mpLayerNotebook.frameworkSubclasses.length = 4 ∧
    dataloaderNotebook.frameworkSubclasses.length = 1 ∧
    notebooks.length = 5 := by
  refine ⟨rfl, rfl, rfl, rfl, rfl, rfl⟩

end GNN

namespace GNN

/-- Whether every row of a matrix has dimension `d`. -/
def rowsHaveDim (m : Mat) (d : Nat) : Bool :=
  m.all (fun r => r.length == d)

lemma randnMat_length (rng : Nat → Nat → ℚ) (n d : Nat) :
    (randnMat rng n d).length = n := by
  simp [randnMat]

lemma randnMat_rows (rng : Nat → Nat → ℚ) (n d : Nat) :
    rowsHaveDim (randnMat rng n d) d = true := by
  simp [rowsHaveDim, randnMat, List.all_eq_true]

lemma generate_er_graph_x (num_nodes feat_dim : Nat)
    (coin : Nat → Nat → Bool) (rng : Nat → Nat → Nat → ℚ) :
    (generate_er_graph num_nodes feat_dim coin rng).x
      = randnMat (rng 0) num_nodes feat_dim := by
  simp [generate_er_graph]

lemma generate_er_graph_x_length (num_nodes feat_dim : Nat)
    (coin : Nat → Nat → Bool) (rng : Nat → Nat → Nat → ℚ) :
    (generate_er_graph num_nodes feat_dim coin rng).x.length = num_nodes := by
  rw [generate_er_graph_x, randnMat_length]

/-- C8: every graph object constructed by code in this repository satisfies
feature dimension consistency: the node-feature tensor has exactly one row
per node, all of the same dimension, and when an edge-feature tensor is
attached it has exactly one row per edge, all of the same dimension.
Instantiated for the three graph constructions of the notebooks:
`generate_er_graph` (3.dataloader.ipynb), `generate_random_graph`
(common/graph_gen, modelled from the spec) and the DGL notebook's
feature-attachment cell. -/
theorem feature_dimension_consistency
    (n fd nd ed : Nat) (coin : Nat → Nat → Bool) (rng : Nat → Nat → Nat → ℚ)
    (rngN rngE : Nat → Nat → ℚ) :
    (generate_er_graph n fd coin rng).x.length = n ∧
    rowsHaveDim (generate_er_graph n fd coin rng).x fd = true ∧
    (generate_er_graph n fd coin rng).edge_attr = none ∧
    (generate_random_graph n nd ed coin rng).x.length = n ∧
    rowsHaveDim (generate_random_graph n nd ed coin rng).x nd = true ∧
    (generate_random_graph n nd ed coin rng).edge_attr
      = some (randnMat (rng 1) (generate_random_graph n nd ed coin rng).edge_index.length ed) ∧
    (randnMat (rng 1) (generate_random_graph n nd ed coin rng).edge_index.length ed).length
      = (generate_random_graph n nd ed coin rng).edge_index.length ∧
    rowsHaveDim (randnMat (rng 1) (generate_random_graph n nd ed coin rng).edge_index.length ed) ed
      = true ∧
    (tutorial0Graph rngN rngE).ndataFeat
      = some (randnMat rngN (tutorial0Graph rngN rngE).num_nodes 7) ∧
    (randnMat rngN (tutorial0Graph rngN rngE).num_nodes 7).length
      = (tutorial0Graph rngN rngE).num_nodes ∧
    rowsHaveDim (randnMat rngN (tutorial0Graph rngN rngE).num_nodes 7) 7 = true ∧
    (tutorial0Graph rngN rngE).edataFeat
      = some (randnMat rngE (tutorial0Graph rngN rngE).edges.length 3) ∧
    (randnMat rngE (tutorial0Graph rngN rngE).edges.length 3).length
      = (tutorial0Graph rngN rngE).edges.length ∧
    rowsHaveDim (randnMat rngE (tutorial0Graph rngN rngE).edges.length 3) 3 = true := by
  refine ⟨generate_er_graph_x_length n fd coin rng, ?_, rfl, ?_, ?_, rfl, ?_, ?_, rfl,
    ?_, ?_, rfl, ?_, ?_⟩
  · rw [generate_er_graph_x]; exact randnMat_rows (rng 0) n fd
  · simp [generate_random_graph, randnMat_length]
  · simp only [generate_random_graph]; exact randnMat_rows (rng 0) n nd
  · exact randnMat_length _ _ _
  · exact randnMat_rows _ _ _
  · exact randnMat_length _ _ _
  · exact randnMat_rows _ _ _
  · exact randnMat_length _ _ _
  · exact randnMat_rows _ _ _

end GNN

namespace GNN

lemma linearForward_length (W : Mat) (b : Vec) (x : Mat) :
    (linearForward W b x).length = x.length := by
  simp [linearForward]

lemma linearForward_getD (W : Mat) (b : Vec) (x : Mat) (j : Nat) (d : Vec)
    (hj : j < x.length) :
    (linearForward W b x).getD j d = vecAdd (matVec W (x.getD j [])) b := by
  rw [List.getD_eq_getElem _ _ (by simpa [linearForward_length] using hj),
      List.getD_eq_getElem _ _ hj]
  simp [linearForward]

/-- C9: for every node-feature matrix `x` and every edge index whose source
ids are in range, `NaiveGCNConv.forward(x, edge_index)` returns, for each
node `i`, the activation applied to the sum over all edges `(j, i)` of
`W x_j + b`; in particular a node with no incoming edges receives the
activation of the zero row. -/
theorem naive_gcn_forward_spec (W : Mat) (b : Vec) (act : ℚ → ℚ)
    (x : Mat) (edge_index : List (Nat × Nat))
    (hE : ∀ e ∈ edge_index, e.1 < x.length) (i : Nat) (hi : i < x.length) :
    (naiveGCNConvForward W b act x edge_index).getD i []
      = naiveGCNSpecRow W b act x edge_index i ∧
    (edge_index.filter (fun e => e.2 = i) = [] →
      (naiveGCNConvForward W b act x edge_index).getD i []
        = (vecZero W.length).map act) := by
  have hx1 : (linearForward W b x).length = x.length := linearForward_length W b x
  have hkey : (naiveGCNConvForward W b act x edge_index).getD i []
      = (vecSum W.length ((edge_index.filter (fun e => e.2 = i)).map
          (fun e => (linearForward W b x).getD e.1 (vecZero W.length)))).map act := by
    have hilt : i < ((List.range (linearForward W b x).length).map
        (fun i => vecSum W.length
          ((edge_index.filter (fun e => e.2 = i)).map
            (fun e => (linearForward W b x).getD e.1 (vecZero W.length))))).length := by
      simpa [hx1] using hi
    simp only [naiveGCNConvForward, propagateAdd]
    rw [List.getD_eq_getElem _ _ (by simpa using hilt)]
    simp [hx1]
  have hmapcongr : (edge_index.filter (fun e => e.2 = i)).map
      (fun e => (linearForward W b x).getD e.1 (vecZero W.length))
      = (edge_index.filter (fun e => e.2 = i)).map
        (fun e => vecAdd (matVec W (x.getD e.1 [])) b) := by
    apply List.map_congr_left
    intro e he
    exact linearForward_getD W b x e.1 (vecZero W.length)
      (hE e (List.mem_of_mem_filter he))
  constructor
  · rw [hkey, hmapcongr]; rfl
  · intro hempty
    rw [hkey, hempty]
    simp [vecSum]

/-- A concrete weight matrix for evaluating `NaiveGCNConv.forward`. -/
def wW : Mat := [[1]]

/-- A concrete bias row for evaluating `NaiveGCNConv.forward`. -/
def wB : Vec := [2]

/-- A concrete activation (`ReLU`) for evaluating `NaiveGCNConv.forward`. -/
def wAct : ℚ → ℚ := fun q => max q 0

/-- A concrete node-feature matrix for evaluating `NaiveGCNConv.forward`. -/
def wX : Mat := [[3], [5]]

/-- A concrete edge index for evaluating `NaiveGCNConv.forward`. -/
def wEdges : List (Nat × Nat) := [(0, 1)]

/-- Witness for `naive_gcn_forward_spec` at a concrete one-edge graph. -/
theorem naive_gcn_forward_spec_witness :
    (∀ e ∈ wEdges, e.1 < wX.length) ∧ 1 < wX.length ∧
    ((naiveGCNConvForward wW wB wAct wX wEdges).getD 1 []
        = naiveGCNSpecRow wW wB wAct wX wEdges 1 ∧
      (wEdges.filter (fun e => e.2 = 1) = [] →
        (naiveGCNConvForward wW wB wAct wX wEdges).getD 1 []
          = (vecZero wW.length).map wAct)) :=
  ⟨by decide, by decide,
    naive_gcn_forward_spec wW wB wAct wX wEdges (by decide) 1 (by decide)⟩

lemma torchRandint_getD (low high n : Nat) (r : Nat → Nat) (i : Nat) (hi : i < n) :
    (torchRandint low high n r).getD i 0 = low + r i % (high - low) := by
  rw [torchRandint, List.getD_eq_getElem _ _ (by simpa using hi)]
  simp

/-- C10: for every `ERDataset` constructed with arguments
`(num_graphs, min_num_nodes, max_num_nodes, edge_prob)` with
`min_num_nodes < max_num_nodes` (which `torch.randint` itself requires),
every graph it contains has a node count `n` with
`min_num_nodes ≤ n < max_num_nodes`: the upper bound is exclusive, so no
graph ever has exactly `max_num_nodes` nodes. -/
theorem er_dataset_node_count_bounds
    (num_graphs min_num_nodes max_num_nodes : Nat)
    (r : Nat → Nat) (coin : Nat → Nat → Nat → Bool)
    (rng : Nat → Nat → Nat → Nat → ℚ)
    (h : min_num_nodes < max_num_nodes) (g : PyGData)
    (hg : g ∈ (ERDataset.init num_graphs min_num_nodes max_num_nodes r coin rng).gs) :
    min_num_nodes ≤ g.x.length ∧ g.x.length < max_num_nodes := by
  simp only [ERDataset.init, List.mem_map, List.mem_range] at hg
  obtain ⟨i, hi, rfl⟩ := hg
  rw [generate_er_graph_x_length, torchRandint_getD _ _ _ _ _ hi]
  have hmod : r i % (max_num_nodes - min_num_nodes) < max_num_nodes - min_num_nodes :=
    Nat.mod_lt _ (by omega)
  omega

/-- A concrete graph of the dataset `ERDataset.init 1 1 3 wR wCoin wRng`,
for the witness below. -/
def wG : PyGData := generate_er_graph 1 16 (wCoin 0) (wRng 0)

/-- Witness for `er_dataset_node_count_bounds` on a concrete one-graph
dataset with bounds `[1, 3)`. -/
theorem er_dataset_node_count_bounds_witness :
    1 < 3 ∧ wG ∈ (ERDataset.init 1 1 3 wR wCoin wRng).gs ∧
    (1 ≤ wG.x.length ∧ wG.x.length < 3) :=
  have hgs : (ERDataset.init 1 1 3 wR wCoin wRng).gs = [wG] := rfl
  have hmem : wG ∈ (ERDataset.init 1 1 3 wR wCoin wRng).gs := by
    rw [hgs]; exact List.mem_singleton_self wG
  ⟨by decide, hmem,
    er_dataset_node_count_bounds 1 1 3 wR wCoin wRng (by decide) wG hmem⟩

end GNN
